import Mathlib

set_option maxRecDepth 10000
set_option maxHeartbeats 1000000

/-!
Shallow embedding of the conversation/budget engine of `ai_chat_v2`
(`src/message.rs` and `src/chat_context.rs`).  The text-to-token encoder is
the injected capability `enc : String → Nat` (the length of
`encode_ordinary`), and the remote completion service is the injected
oracle of type `Completion`.  Machine integers: Rust `i64` values are
modelled as `Int`, `usize` values as `Nat`, and the `as usize` cast as
reduction modulo `2 ^ 64` (the exact unsigned reinterpretation of an
`i64` on a 64-bit target).
-/

/-- Chat roles (`openai_rs::chat::Role`). -/
inductive Role where
  | system
  | assistant
  | user
deriving DecidableEq

/-- `openai_rs::chat::ChatMessage`: a role, a content string and an optional sender name. -/
structure ChatMessage where
  role : Role
  content : String
  name : Option String
deriving DecidableEq

/-- `role_str` from `message.rs` (the same table appears in `chat_context.rs`). -/
def role_str : Role → String
  | Role.assistant => "Assistant"
  | Role.system => "System"
  | Role.user => "User"

/-- The fixed summarization instruction text `PROMPT_COMPRESS`. -/
def PROMPT_COMPRESS : String := "Summarize the chat history precisely and concisely"

/-- `get_summary_instruction` from `message.rs`. -/
def get_summary_instruction : ChatMessage :=
  ⟨Role.system, PROMPT_COMPRESS, none⟩

/-- `get_summary_message` from `message.rs`. -/
def get_summary_message (summary : Option String) : ChatMessage :=
  ⟨Role.system, (match summary with | some message => message | none => ""), some ("Context")⟩

/-- `get_tokens_per_message` from `message.rs`: per-model fixed overhead per message. -/
def get_tokens_per_message : String → Option Int
  | "gpt-4" | "gpt-4-32k" => some 3
  | "gpt-3.5-turbo" => some 4
  | _ => none

/-- `get_tokens_per_name` from `message.rs`: per-model fixed overhead per named sender. -/
def get_tokens_per_name : String → Option Int
  | "gpt-4" | "gpt-4-32k" => some 1
  | "gpt-3.5-turbo" => some (-1)
  | _ => none

/-- The two per-model constants used by `count_message_tokens`, resolved once from the
tables above (the Rust code resolves them on every call through `.expect`, panicking on
an unknown model; all theorems below instantiate them from a known model). -/
structure ModelParams where
  tpm : Int
  tpn : Int
deriving DecidableEq

/-- The constants `get_tokens_per_message "gpt-4" = 3`, `get_tokens_per_name "gpt-4" = 1`. -/
def gpt4 : ModelParams := ⟨3, 1⟩

/-- The `as usize` cast applied to an `i64` value: unsigned reinterpretation,
i.e. reduction modulo `2 ^ 64`. -/
def usize_cast (x : Int) : Nat := (x % (2 : Int) ^ 64).toNat

/-- Free function `count_message_tokens` from `message.rs`:
`tpm + len(encode(content)) + len(encode(role_str)) + (tpn + len(encode(name)) if named)`. -/
def count_message_tokens (enc : String → Nat) (p : ModelParams) (message : ChatMessage) : Int :=
  p.tpm + (enc message.content : Int) + (enc (role_str message.role) : Int) +
    match message.name with
    | some name => p.tpn + (enc name : Int)
    | none => 0

/-- The `User` enum from `message.rs`.  The Rust variant `User { aliases: NonNull<UserAliases> }`
holds a non-owning pointer into the registry; the only operation ever applied to it is
dereferencing followed by structural equality (`find.as_ref() == user`), so it is modelled
by the alias-list value it points to. -/
inductive User where
  | assistant
  | system
  | user (aliases : List String)
deriving DecidableEq

/-- The `Message` struct from `message.rs`. -/
structure Message where
  sender : User
  message : String
deriving DecidableEq

/-- `Message::to_chat_message`: role from the sender variant, and name tag `u{i}`
when a user index is supplied. -/
def Message.to_chat_message (m : Message) (user_index : Option Nat) : ChatMessage :=
  ⟨(match m.sender with
    | User.system => Role.system
    | User.assistant => Role.assistant
    | User.user _ => Role.user),
   m.message,
   (match user_index with
    | some user_index => some ("u" ++ toString user_index)
    | none => none)⟩

/-- The `Context` struct from `message.rs`.  `users` is the pinned `UserList`'s vector of
alias lists; the `openai_context` collaborator and the `encoding` capability are passed
to each operation explicitly rather than stored. -/
structure Context where
  users : List (List String)
  messages : List Message
  summary : Option String
  max_tokens : Nat
  model : String
  summary_budget : Nat
  summary_instruction_budget : Nat
  history_target : Nat
  alias_budget : Nat
deriving DecidableEq

/-- `ContextOverrunError` from `message.rs` (field names as in the source:
`context_budget` receives `history_target`, `history_budget` receives the adjusted
summary budget). -/
structure ContextOverrunError where
  max_tokens : Nat
  context_budget : Nat
  history_budget : Nat
  alias_budget : Nat
deriving DecidableEq

/-- `Context::new`: computes the summary-instruction overhead, augments the configured
summary budget by the cost of an empty summary context message, and fails iff
`history_target + summary_budget + alias_budget + summary_instruction_budget >= max_tokens`. -/
def Context.new (enc : String → Nat) (p : ModelParams) (max_tokens : Nat) (model : String)
    (summary_budget : Nat) (history_target : Nat) (alias_budget : Nat) :
    Except ContextOverrunError Context :=
  let summary_instruction_budget := usize_cast (count_message_tokens enc p get_summary_instruction)
  let summary_budget := summary_budget + usize_cast (count_message_tokens enc p (get_summary_message none))
  if history_target + summary_budget + alias_budget + summary_instruction_budget ≥ max_tokens then
    Except.error ⟨max_tokens, history_target, summary_budget, alias_budget⟩
  else
    Except.ok
      { users := []
        messages := []
        summary := none
        max_tokens := max_tokens
        model := model
        summary_budget := summary_budget
        summary_instruction_budget := summary_instruction_budget
        history_target := history_target
        alias_budget := alias_budget }

/-- Index of the first registered alias list structurally equal to `find`
(the loop body of `Context::find_user_by_alias`). -/
def find_index_of_alias (find : List String) : List (List String) → Option Nat
  | [] => none
  | u :: rest => if find = u then some 0 else (find_index_of_alias find rest).map (fun i => i + 1)

/-- `Context::find_user_by_alias`. -/
def Context.find_user_by_alias (c : Context) (find : List String) : Option Nat :=
  find_index_of_alias find c.users

/-- `Context::find_user`: only `User::User` senders resolve to an index. -/
def Context.find_user (c : Context) (find : User) : Option Nat :=
  match find with
  | User.user aliases => c.find_user_by_alias aliases
  | _ => none

/-- `Context::update_user_list`: resolves a user sender to its registry index, and on a
miss (logged as a probable bug in the source) appends a clone of the observed aliases
and returns the new last index. -/
def Context.update_user_list (c : Context) (user : User) : Option Nat × Context :=
  match user with
  | User.user aliases =>
    (match c.find_user_by_alias aliases with
     | some index => (some index, c)
     | none => (some c.users.length, { c with users := c.users ++ [aliases] }))
  | _ => (none, c)

/-- `Context::history_token_limit`:
`max_tokens - alias_budget - summary_budget - summary_instruction_budget` in `usize`
arithmetic (never underflows on a context produced by `Context::new`). -/
def Context.history_token_limit (c : Context) : Nat :=
  c.max_tokens - c.alias_budget - c.summary_budget - c.summary_instruction_budget

/-- The render loop of `Context::chat_to_history`: each message in the slice is rendered
with `Some(index)` — the *enumeration position within the slice* — as the user index
when its sender is a `User::User`, and `None` otherwise. -/
def render_from (i : Nat) : List Message → List ChatMessage
  | [] => []
  | m :: rest =>
    m.to_chat_message (match m.sender with | User.user _ => some i | _ => none) ::
      render_from (i + 1) rest

/-- `Context::chat_to_history`: renders the last `last_n` messages (clamped to the
history length; `None` means the whole history). -/
def Context.chat_to_history (c : Context) (last_n : Option Nat) : List ChatMessage :=
  let last_n := min (match last_n with | some value => value | none => c.messages.length) c.messages.length
  render_from 0 (c.messages.drop (c.messages.length - last_n))

/-- The accumulation loop of the method `Context::count_message_tokens`. -/
def count_chat_list_tokens (enc : String → Nat) (p : ModelParams) : List ChatMessage → Int
  | [] => 0
  | m :: rest => count_message_tokens enc p m + count_chat_list_tokens enc p rest

/-- Method `Context::count_message_tokens`: total token cost of the full rendered history.
(Named `count_history_tokens` here because inside the `Context` namespace the source
name would shadow the free function `count_message_tokens` it calls.) -/
def Context.count_history_tokens (enc : String → Nat) (p : ModelParams) (c : Context) : Int :=
  count_chat_list_tokens enc p (c.chat_to_history none)

/-- Result of an operation that may return normally, return an error
(`anyhow::Result::Err`), or abort the process (a Rust `panic`, modelled by `fatal`). -/
inductive Outcome (α : Type) where
  | ok (value : α)
  | err (error : String)
  | fatal (message : String)
deriving DecidableEq

/-- The request assembled through `ChatHistoryBuilder` (tuning knobs such as
`temperature` are irrelevant to every claim and omitted). -/
structure ChatRequest where
  messages : List ChatMessage
  max_tokens : Nat
  model : String
deriving DecidableEq

/-- One completion choice of a service response. -/
structure Choice where
  message : ChatMessage
deriving DecidableEq

/-- A completion-service response: a list of choices. -/
structure ChatResponse where
  choices : List Choice
deriving DecidableEq

/-- The completion-service collaborator: maps a request to a transport-level result. -/
def Completion : Type := ChatRequest → Except String ChatResponse

/-- The scan loop of `Context::compress_history`: walks the history oldest-to-newest,
consuming `permitted` budget; `skip_count` becomes the number of leading messages that
fit consecutively. -/
def compress_walk (cost : Message → Nat) : List Message → Nat → Nat
  | [], _ => 0
  | m :: rest, permitted =>
    if cost m > permitted then 0 else compress_walk cost rest (permitted - cost m) + 1

/-- `Context::compress_history`: computes the permitted size, walks the history, sends the
*last `len - skip_count`* rendered messages plus the summarization instruction to the
service с `max_tokens = summary_budget`, stores the first choice's content as the new
summary, and `drain(skip_count..)` — i.e. *retains the first `skip_count` messages*.
A transport error propagates through `?` before any mutation; `choices.remove(0)` on an
empty choice list is an index-out-of-bounds panic. -/
def Context.compress_history (enc : String → Nat) (p : ModelParams) (compl : Completion)
    (c : Context) (new_tokens : Nat) : Outcome Context :=
  let permitted_history_size :=
    if new_tokens > c.history_target then 0 else c.history_target - new_tokens
  let skip_count := compress_walk
    (fun m => usize_cast (count_message_tokens enc p (m.to_chat_message (c.find_user m.sender))))
    c.messages permitted_history_size
  let history := c.chat_to_history (some (c.messages.length - skip_count)) ++ [get_summary_instruction]
  match compl ⟨history, c.summary_budget, c.model⟩ with
  | Except.error e => Outcome.err e
  | Except.ok response =>
    match response.choices with
    | [] => Outcome.fatal ("index out of bounds: choices.remove(0) on an empty vector")
    | choice :: _ =>
      Outcome.ok { c with
        summary := some choice.message.content
        messages := c.messages.take skip_count }

/-- `Context::add_message`: resolves the sender, compares the cast total against
`history_token_limit`, invokes `compress_history` when at or over it — *discarding its
`Result`* — and pushes the new message unconditionally (unless the compression call
panicked, which aborts the process before the push). -/
def Context.add_message (enc : String → Nat) (p : ModelParams) (compl : Completion)
    (c : Context) (message : String) (user : User) : Outcome Context :=
  let r := c.update_user_list user
  let user_index := r.1
  let c1 := r.2
  let total_tokens := Context.count_history_tokens enc p c1
  let message := Message.mk user message
  let message_tokens := count_message_tokens enc p (message.to_chat_message user_index)
  if usize_cast (total_tokens + message_tokens) ≥ c1.history_token_limit then
    match Context.compress_history enc p compl c1 (usize_cast message_tokens) with
    | Outcome.ok c2 => Outcome.ok { c2 with messages := c2.messages ++ [message] }
    | Outcome.err _ => Outcome.ok { c1 with messages := c1.messages ++ [message] }
    | Outcome.fatal s => Outcome.fatal s
  else
    Outcome.ok { c1 with messages := c1.messages ++ [message] }

/-- `Context::generate_response`: renders the history, prepends the summary context
message when a summary exists, requests a completion with
`max_tokens = history_token_limit`, then `choices.remove(0)` (panic when empty, first
choice otherwise); empty content yields `None`, otherwise an Assistant `Message`.
It takes `&self`: no conversation state is ever modified.  (The encoder capability is
not consulted on this path and is therefore not a parameter.) -/
def Context.generate_response (compl : Completion) (c : Context) : Outcome (Option Message) :=
  let history := c.chat_to_history none
  let history :=
    match c.summary with
    | some summary => get_summary_message (some summary) :: history
    | none => history
  match compl ⟨history, c.history_token_limit, c.model⟩ with
  | Except.error e => Outcome.err e
  | Except.ok response =>
    match response.choices with
    | [] => Outcome.fatal ("index out of bounds: choices.remove(0) on an empty vector")
    | choice :: _ =>
      let response := choice.message.content
      Outcome.ok (if response.length > 0 then some (Message.mk User.assistant response) else none)

/-- `UserAlias` from `chat_context.rs` (the `u16` id modelled as `Nat`). -/
structure UserAlias where
  id : Nat
  names : List String
deriving DecidableEq

/-- `MessageType` from `chat_context.rs`. -/
inductive MessageType where
  | assistantMessage
  | userMessage (sender : UserAlias)
deriving DecidableEq

/-- `MetaChatMessage` from `chat_context.rs`. -/
structure MetaChatMessage where
  chat_message : ChatMessage
  message_type : MessageType
deriving DecidableEq

/-- The `ChatContext` struct from `chat_context.rs` (the `api_context` collaborator and
the `encoding` capability are passed to `send_message` explicitly; the unused `context`
and `user_aliases` fields play no part in `send_message` and are omitted).
`max_tokens` is an `i64` in the source, hence `Int`. -/
structure ChatContext where
  model : String
  max_tokens : Int
  history : List MetaChatMessage
deriving DecidableEq

/-- `count_tokens` from `chat_context.rs`: the per-entry formula is identical to the
free `count_message_tokens`, applied to each entry's `chat_message`. -/
def count_tokens (enc : String → Nat) (p : ModelParams) : List MetaChatMessage → Int
  | [] => 0
  | entry :: rest => count_message_tokens enc p entry.chat_message + count_tokens enc p rest

/-- `ChatContext::send_message`: pushes the message, then `panic!`s when the history
token count reaches `max_tokens - tpm`; otherwise requests a completion
(`assert!(completion.is_ok())` and `assert!(result.choices.len() == 1)` are panics)
and returns the single choice as an assistant message. -/
def ChatContext.send_message (enc : String → Nat) (p : ModelParams) (compl : Completion)
    (cc : ChatContext) (message : MetaChatMessage) : Outcome (ChatContext × MetaChatMessage) :=
  let cc := { cc with history := cc.history ++ [message] }
  let message_token_count := count_tokens enc p cc.history + p.tpm
  if message_token_count ≥ cc.max_tokens - p.tpm then
    Outcome.fatal ("Message history exceeds token limit! No new message can be generated.")
  else
    let max_tokens := cc.max_tokens - message_token_count - p.tpm - 1
    match compl ⟨cc.history.map (fun m => m.chat_message), usize_cast max_tokens, cc.model⟩ with
    | Except.error _ => Outcome.fatal ("Could not create completion")
    | Except.ok result =>
      match result.choices with
      | [choice] => Outcome.ok (cc, ⟨choice.message, MessageType.assistantMessage⟩)
      | _ => Outcome.fatal ("No completion found")

/-- A message sender has no display name exactly when it is not a `User::User` variant. -/
def Message.is_plain (m : Message) : Bool :=
  match m.sender with
  | User.user _ => false
  | _ => true

/-- Token cost of a message rendered with no name tag. -/
def plain_cost (enc : String → Nat) (p : ModelParams) (m : Message) : Int :=
  count_message_tokens enc p (m.to_chat_message none)

/-- Concrete encoder used by witnesses and counterexamples: one token per character. -/
def enc0 : String → Nat := String.length

/-- Completion oracle that always succeeds with one choice carrying the given text. -/
def oracle_ok (text : String) : Completion :=
  fun _ => Except.ok ⟨[⟨⟨Role.assistant, text, none⟩⟩]⟩

/-- Completion oracle that returns two choices. -/
def oracle_two : Completion :=
  fun _ => Except.ok ⟨[⟨⟨Role.assistant, "first", none⟩⟩, ⟨⟨Role.assistant, "second", none⟩⟩]⟩

/-- Completion oracle that returns zero choices. -/
def oracle_zero : Completion :=
  fun _ => Except.ok ⟨[]⟩

/-- Completion oracle whose transport always fails. -/
def oracle_err : Completion :=
  fun _ => Except.error ("service unavailable")

/-- A 200-character message text used by the oversized-message traces. -/
def big_text : String := String.mk (List.replicate 200 'a')

/-- A cheap oldest message for the compression traces. -/
def msgA : Message := ⟨User.system, "a"⟩

/-- A more expensive newest message for the compression traces. -/
def msgB : Message := ⟨User.system, "bbbbbbbbbbbbbbbbbbbb"⟩

/-- A two-message context used to exhibit which side `compress_history` retains
(`enc0`, model `gpt-4`: `msgA` costs 10 tokens, `msgB` costs 29). -/
def ctx_c1 : Context :=
  { users := []
    messages := [msgA, msgB]
    summary := none
    max_tokens := 1000
    model := "gpt-4"
    summary_budget := 100
    summary_instruction_budget := 59
    history_target := 50
    alias_budget := 10 }

/-- The context produced by
`Context::new(enc0, gpt-4, max_tokens := 200, summary_budget := 10, history_target := 20, alias_budget := 5)`:
the stored summary budget is 10 + 17 (empty summary context message) and the
instruction overhead is 59 tokens. -/
def ctx_c2_0 : Context :=
  { users := []
    messages := []
    summary := none
    max_tokens := 200
    model := "gpt-4"
    summary_budget := 27
    summary_instruction_budget := 59
    history_target := 20
    alias_budget := 5 }

/-- The state after `add_message(big_text, System)` on `ctx_c2_0`: the whole (empty)
history was summarized and the 209-token message was appended anyway. -/
def ctx_c2_1 : Context :=
  { users := []
    messages := [⟨User.system, big_text⟩]
    summary := some ("summary")
    max_tokens := 200
    model := "gpt-4"
    summary_budget := 27
    summary_instruction_budget := 59
    history_target := 20
    alias_budget := 5 }

/-- A context whose registry holds one participant who sent the first and third
messages of the history. -/
def ctx_c5 : Context :=
  { users := [["Alice"]]
    messages := [⟨User.user ["Alice"], "hi"⟩, ⟨User.system, "mid"⟩, ⟨User.user ["Alice"], "yo"⟩]
    summary := none
    max_tokens := 1000
    model := "gpt-4"
    summary_budget := 100
    summary_instruction_budget := 59
    history_target := 50
    alias_budget := 10 }

/-- A `ChatContext` whose 20-token ceiling any 30-character message overruns. -/
def cc4 : ChatContext := ⟨"gpt-4", 20, []⟩

/-- A 30-character incoming message for `cc4` (37 tokens under `enc0`/`gpt-4`). -/
def meta4 : MetaChatMessage :=
  ⟨⟨Role.user, "aaaaaaaaaaaaaaaaaaaaaaaaaaaaaa", none⟩, MessageType.assistantMessage⟩

/-- Every stored message is rendered without a name tag (no `User::User` sender). -/
def plain_history (c : Context) : Prop := ∀ m ∈ c.messages, m.is_plain = true

/-- States of `Context` reachable from `Context::new` (model `gpt-4`, any valid
`NonZeroUsize` budgets within the `i64` range) through `add_message` calls restricted to
the conditions under which the budget accounting is coherent: System/Assistant senders,
incoming messages costing at most `history_target`, and a summarization collaborator
that always returns successfully with at least one choice.  `generate_response` takes
`&self` and cannot change the state, so it contributes no transition. -/
inductive SafeReach (enc : String → Nat) : Context → Prop where
  | init (max_tokens : Nat) (model : String)
      (summary_budget : Nat) (history_target : Nat) (alias_budget : Nat) (c : Context) :
      0 < max_tokens → 0 < summary_budget → 0 < history_target → 0 < alias_budget →
      max_tokens < 2 ^ 63 →
      Context.new enc gpt4 max_tokens model summary_budget history_target alias_budget =
        Except.ok c →
      SafeReach enc c
  | step (compl : Completion) (c c' : Context) (text : String) (sender : User) :
      SafeReach enc c →
      (Message.mk sender text).is_plain = true →
      count_message_tokens enc gpt4 ((Message.mk sender text).to_chat_message none) ≤
        (c.history_target : Int) →
      (∀ request : ChatRequest, ∃ response choice rest,
        compl request = Except.ok response ∧ response.choices = choice :: rest) →
      Context.add_message enc gpt4 compl c text sender = Outcome.ok c' →
      SafeReach enc c'

/-- Completion oracle returning exactly one choice with empty content. -/
def oracle_empty : Completion :=
  fun _ => Except.ok ⟨[⟨⟨Role.assistant, "", none⟩⟩]⟩

/-- Whether an `ok` outcome's retained history ends with the given message
(vacuously true for errors and panics). -/
def ok_messages_end (o : Outcome Context) (m : Message) : Prop :=
  match o with
  | Outcome.ok c' => c'.messages.getLast? = some m
  | _ => True

/-- The inductive invariant carried along `SafeReach`: name-free history, budgets in
the `i64` range, the construction-time budget inequality, and the claimed budget
invariant itself. -/
def good_state (enc : String → Nat) (c : Context) : Prop :=
  plain_history c ∧
  c.max_tokens < 2 ^ 63 ∧
  c.history_target + c.summary_budget + c.alias_budget + c.summary_instruction_budget <
    c.max_tokens ∧
  Context.count_history_tokens enc gpt4 c + (c.summary_budget : Int) + (c.alias_budget : Int) +
    (c.summary_instruction_budget : Int) < (c.max_tokens : Int)

/-- C1: the claim states that after `compress_history` the retained messages are the
last `keep_count` (newest) messages and the summarized-and-dropped portion is the
oldest prefix.  Evaluating the code at a two-message history (`msgA` costs 10, `msgB`
costs 29, permitted size 20): the walk stops after `msgA`, `drain(skip_count..)`
*retains the oldest message* `msgA`, and the summarization request body
(`chat_to_history(len - skip_count)`) is the *newest* message `msgB` — the exact
opposite of the claimed retention. -/
theorem c1_compress_keeps_oldest_prefix :
  Context.compress_history enc0 gpt4 (oracle_ok ("S")) ctx_c1 30 =
    Outcome.ok { ctx_c1 with summary := some ("S"), messages := [msgA] } ∧
  ctx_c1.messages = [msgA, msgB] ∧
  Context.chat_to_history ctx_c1 (some 1) = [msgB.to_chat_message none] ∧
  msgA ≠ msgB := by
  refine ⟨rfl, rfl, rfl, ?_⟩
  decide

/-- C3: the claim states that a choice count other than one makes `generate_response`
fail with a ProtocolViolation error.  Evaluating the code: with two choices the call
*succeeds*, silently using the first choice; with zero choices it is an
index-out-of-bounds panic (`choices.remove(0)`), not an error returned to the caller. -/
theorem c3_choice_count_not_checked :
  Context.generate_response oracle_two ctx_c1 =
    Outcome.ok (some (Message.mk User.assistant ("first"))) ∧
  Context.generate_response oracle_zero ctx_c1 =
    Outcome.fatal ("index out of bounds: choices.remove(0) on an empty vector") := by
  exact ⟨rfl, rfl⟩

/-- C4: the claim states that an incoming message that cannot fit even after dropping
all prior history yields a typed recoverable BudgetExceeded error and never terminates
the process.  Evaluating the code: `ChatContext::send_message` panics
(process abort) on overrun, and `Context::add_message` returns successfully, silently
appending a message whose cost (209 tokens) alone exceeds the whole history budget
(109 tokens); no typed budget error exists on either path. -/
theorem c4_budget_overrun_not_typed_error :
  ChatContext.send_message enc0 gpt4 (oracle_ok ("x")) cc4 meta4 =
    Outcome.fatal ("Message history exceeds token limit! No new message can be generated.") ∧
  Context.add_message enc0 gpt4 (oracle_ok ("summary")) ctx_c2_0 big_text User.system =
    Outcome.ok ctx_c2_1 ∧
  usize_cast (count_message_tokens enc0 gpt4
      ((Message.mk User.system big_text).to_chat_message none)) >
    ctx_c2_0.history_token_limit := by
  refine ⟨rfl, rfl, ?_⟩
  decide

/-- C5: the claim states that each User message is tagged `u{i}` with `i` the sender's
stable registry alias index, so one sender always carries one tag.  Evaluating
`chat_to_history` at a history where the participant with registry index 0 sent the
first and third messages: the rendered tags are `u0` and `u2` — the *slice position*,
not the registry index — so the same sender carries two different tags in one
rendering. -/
theorem c5_name_tags_are_positions :
  (Context.chat_to_history ctx_c5 none).map ChatMessage.name =
    [some ("u0"), none, some ("u2")] ∧
  Context.find_user ctx_c5 (User.user ["Alice"]) = some 0 ∧
  ctx_c5.messages.map Message.sender =
    [User.user ["Alice"], User.system, User.user ["Alice"]] := by
  exact ⟨rfl, rfl, rfl⟩

/-- C2 (counterexample): the state reached from a freshly constructed context by a
single `add_message` carrying a 209-token message violates the budget invariant
`token_cost(kept history) + summary_budget + alias_budget + summary_instruction_overhead
< max_tokens` (the left side is 300 against `max_tokens = 200`). -/
theorem c2_counterexample :
  Context.new enc0 gpt4 200 ("gpt-4") 10 20 5 = Except.ok ctx_c2_0 ∧
  Context.add_message enc0 gpt4 (oracle_ok ("summary")) ctx_c2_0 big_text User.system =
    Outcome.ok ctx_c2_1 ∧
  ¬ (Context.count_history_tokens enc0 gpt4 ctx_c2_1 + (ctx_c2_1.summary_budget : Int) +
      (ctx_c2_1.alias_budget : Int) + (ctx_c2_1.summary_instruction_budget : Int) <
      (ctx_c2_1.max_tokens : Int)) := by
  refine ⟨rfl, rfl, ?_⟩
  decide

/-- C6 (counterexample): with configured budgets `summary_budget = 10`,
`history_target = 10`, `alias_budget = 10` and `max_tokens = 90`, the configured sum
`10 + 10 + 10 + 59 = 89` is strictly below `max_tokens`, yet construction fails,
because the check is made against the summary budget *augmented by the 17-token cost
of the empty summary context message* — refuting "fails exactly when
history_target + summary_budget + alias_budget + summary_instruction_overhead
>= max_tokens for the configured budget values". -/
theorem c6_counterexample :
  10 + 10 + 10 + usize_cast (count_message_tokens enc0 gpt4 get_summary_instruction) < 90 ∧
  Context.new enc0 gpt4 90 ("gpt-4") 10 10 10 = Except.error ⟨90, 10, 27, 10⟩ := by
  exact ⟨by decide, rfl⟩

/-- Helper: `update_user_list` never changes the stored messages or summary
(only the registry can grow). -/
theorem update_user_list_preserves (c : Context) (user : User) :
    (c.update_user_list user).2.messages = c.messages ∧
    (c.update_user_list user).2.summary = c.summary ∧
    (c.update_user_list user).2.max_tokens = c.max_tokens := by
  cases user with
  | user aliases =>
    simp only [Context.update_user_list]
    cases c.find_user_by_alias aliases <;> simp
  | system => exact ⟨rfl, rfl, rfl⟩
  | assistant => exact ⟨rfl, rfl, rfl⟩

/-- C6 (amended): construction fails — with the error carrying the attempted budgets —
exactly when `history_target + (summary_budget + cost(empty summary context message)) +
alias_budget + summary_instruction_overhead >= max_tokens`; on success the strict
inequality holds and the stored budgets are exactly the computed ones, never clamped.
The check is an `Except` value decided before any message is processed, not a panic. -/
theorem c6_construction_check (enc : String → Nat) (p : ModelParams) (max_tokens : Nat)
    (model : String) (summary_budget : Nat) (history_target : Nat) (alias_budget : Nat)
    (h1 : 0 < max_tokens) (h2 : 0 < summary_budget) (h3 : 0 < history_target)
    (h4 : 0 < alias_budget) :
    (history_target +
        (summary_budget + usize_cast (count_message_tokens enc p (get_summary_message none))) +
        alias_budget + usize_cast (count_message_tokens enc p get_summary_instruction) ≥
        max_tokens →
      Context.new enc p max_tokens model summary_budget history_target alias_budget =
        Except.error ⟨max_tokens, history_target,
          summary_budget + usize_cast (count_message_tokens enc p (get_summary_message none)),
          alias_budget⟩) ∧
    (history_target +
        (summary_budget + usize_cast (count_message_tokens enc p (get_summary_message none))) +
        alias_budget + usize_cast (count_message_tokens enc p get_summary_instruction) <
        max_tokens →
      Context.new enc p max_tokens model summary_budget history_target alias_budget =
        Except.ok
          { users := []
            messages := []
            summary := none
            max_tokens := max_tokens
            model := model
            summary_budget :=
              summary_budget + usize_cast (count_message_tokens enc p (get_summary_message none))
            summary_instruction_budget :=
              usize_cast (count_message_tokens enc p get_summary_instruction)
            history_target := history_target
            alias_budget := alias_budget }) := by
  constructor
  · intro h
    simp only [Context.new]
    rw [if_pos h]
  · intro h
    simp only [Context.new]
    rw [if_neg (by omega)]

/-- C6 (amended, witness): a concrete successful construction under `enc0`/`gpt-4`. -/
theorem c6_construction_check_witness :
    Context.new enc0 gpt4 200 ("gpt-4") 10 20 5 = Except.ok ctx_c2_0 :=
  ((c6_construction_check enc0 gpt4 200 ("gpt-4") 10 20 5 (by decide) (by decide) (by decide)
    (by decide)).2 (by decide)).trans rfl

/-- C7: `add_message` invokes `compress_history` (before appending) if and only if the
cast of `history_cost + incoming_cost` is at least
`max_tokens - alias_budget - summary_budget - summary_instruction_overhead`, and in
every returning outcome the new message is appended to whatever history remains; on
the discarded-error path it is appended to the untouched history, and only a panic of
the summarization call (which aborts the process) prevents the push. -/
theorem c7_add_message_trigger (enc : String → Nat) (p : ModelParams) (compl : Completion)
    (c : Context) (text : String) (user : User) :
    (Context.add_message enc p compl c text user =
      (if usize_cast (Context.count_history_tokens enc p (c.update_user_list user).2 +
            count_message_tokens enc p
              ((Message.mk user text).to_chat_message (c.update_user_list user).1)) ≥
          (c.update_user_list user).2.max_tokens - (c.update_user_list user).2.alias_budget -
            (c.update_user_list user).2.summary_budget -
            (c.update_user_list user).2.summary_instruction_budget then
        match Context.compress_history enc p compl (c.update_user_list user).2
            (usize_cast (count_message_tokens enc p
              ((Message.mk user text).to_chat_message (c.update_user_list user).1))) with
        | Outcome.ok c2 => Outcome.ok { c2 with messages := c2.messages ++ [Message.mk user text] }
        | Outcome.err _ =>
          Outcome.ok { (c.update_user_list user).2 with
            messages := (c.update_user_list user).2.messages ++ [Message.mk user text] }
        | Outcome.fatal s => Outcome.fatal s
      else
        Outcome.ok { (c.update_user_list user).2 with
          messages := (c.update_user_list user).2.messages ++ [Message.mk user text] })) ∧
    ok_messages_end (Context.add_message enc p compl c text user) (Message.mk user text) := by
  constructor
  · rfl
  · simp only [Context.add_message]
    split
    · split
      · simp [ok_messages_end, List.getLast?_concat]
      · simp [ok_messages_end, List.getLast?_concat]
      · simp [ok_messages_end]
    · simp [ok_messages_end, List.getLast?_concat]

/-- Helper: `chat_to_history` with `Some(len)` renders the same full history as `None`. -/
theorem chat_to_history_full (c : Context) :
    c.chat_to_history (some c.messages.length) = c.chat_to_history none := rfl

/-- C8: inside `compress_history` the permitted history size equals
`max(0, history_target - new_tokens)` (the `usize` branch computes exactly the
integer maximum); and whenever every individual historical message costs more than
this permitted size, the walk stops immediately (`keep = 0`), the summarization
request carries the *entire* prior rendered history plus the instruction, and no
prior message remains in memory on the successful path. -/
theorem c8_compress_all_too_big (enc : String → Nat) (p : ModelParams) (compl : Completion)
    (c : Context) (new_tokens : Nat)
    (hbig : ∀ m ∈ c.messages,
      usize_cast (count_message_tokens enc p (m.to_chat_message (c.find_user m.sender))) >
        (if new_tokens > c.history_target then 0 else c.history_target - new_tokens)) :
    ((if new_tokens > c.history_target then 0 else c.history_target - new_tokens : Nat) : Int) =
      max 0 ((c.history_target : Int) - (new_tokens : Int)) ∧
    Context.compress_history enc p compl c new_tokens =
      (match compl ⟨c.chat_to_history none ++ [get_summary_instruction],
          c.summary_budget, c.model⟩ with
       | Except.error e => Outcome.err e
       | Except.ok response =>
         match response.choices with
         | [] => Outcome.fatal ("index out of bounds: choices.remove(0) on an empty vector")
         | choice :: _ =>
           Outcome.ok { c with summary := some choice.message.content, messages := [] }) := by
  constructor
  · split
    · next h => simp; omega
    · next h => omega
  · have hskip : compress_walk
        (fun m => usize_cast (count_message_tokens enc p (m.to_chat_message (c.find_user m.sender))))
        c.messages
        (if new_tokens > c.history_target then 0 else c.history_target - new_tokens) = 0 := by
      cases hm : c.messages with
      | nil => rfl
      | cons m rest =>
        have hb := hbig m (by rw [hm]; exact List.mem_cons_self m rest)
        simp only [compress_walk, if_pos hb]
    simp only [Context.compress_history, hskip, Nat.sub_zero, List.take_zero,
      chat_to_history_full]

/-- C8 (witness): on `ctx_c1` with `new_tokens = 100 > history_target = 50` every
message (10 and 29 tokens) exceeds the permitted size 0: the whole history is
summarized and none of it survives. -/
theorem c8_compress_all_too_big_witness :
    (∀ m ∈ ctx_c1.messages,
      usize_cast (count_message_tokens enc0 gpt4 (m.to_chat_message (ctx_c1.find_user m.sender))) >
        (if 100 > ctx_c1.history_target then 0 else ctx_c1.history_target - 100)) ∧
    Context.compress_history enc0 gpt4 (oracle_ok ("S")) ctx_c1 100 =
      Outcome.ok { ctx_c1 with summary := some ("S"), messages := [] } :=
  ⟨by decide,
   ((c8_compress_all_too_big enc0 gpt4 (oracle_ok ("S")) ctx_c1 100 (by decide)).2).trans rfl⟩

/-- C9: when the completion service returns exactly one choice whose content is the
empty string, `generate_response` returns `Ok(None)` — an outcome distinct from every
error result — and in general a returned message never has empty text. -/
theorem c9_empty_completion_yields_none (compl : Completion) (c : Context) (choice : Choice)
    (hone : ∀ request, compl request = Except.ok ⟨[choice]⟩)
    (hempty : choice.message.content = "") :
    Context.generate_response compl c = Outcome.ok none ∧
    (∀ e : String, Context.generate_response compl c ≠ Outcome.err e) ∧
    (∀ (compl2 : Completion) (m : Message),
      Context.generate_response compl2 c = Outcome.ok (some m) → m.message.length > 0) := by
  have hmain : Context.generate_response compl c = Outcome.ok none := by
    simp only [Context.generate_response, hone, hempty]
    rfl
  refine ⟨hmain, fun e h => by rw [hmain] at h; exact absurd h (by simp), ?_⟩
  intro compl2 m h
  simp only [Context.generate_response] at h
  split at h
  · simp at h
  · split at h
    · simp at h
    · split at h
      · next hlen =>
          simp only [Outcome.ok.injEq, Option.some.injEq] at h
          subst h
          exact hlen
      · simp at h

/-- C9 (witness): a service returning one empty choice makes `generate_response`
return `Ok(None)` on a concrete context. -/
theorem c9_empty_completion_yields_none_witness :
    Context.generate_response oracle_empty ctx_c1 = Outcome.ok none :=
  (c9_empty_completion_yields_none oracle_empty ctx_c1 ⟨⟨Role.assistant, "", none⟩⟩
    (fun _ => rfl) rfl).1

/-- C10: when the summarization completion call inside `compress_history` fails with a
returned error during `add_message`, the error is discarded (the `Result` of
`compress_history` is dropped on the floor): `add_message` still succeeds, the incoming
message is appended, and the previously stored messages and the previous summary are
exactly as before the call. -/
theorem c10_summarization_error_discarded (enc : String → Nat) (p : ModelParams)
    (compl : Completion) (c : Context) (text : String) (user : User) (e : String)
    (hfail : Context.compress_history enc p compl (c.update_user_list user).2
        (usize_cast (count_message_tokens enc p
          ((Message.mk user text).to_chat_message (c.update_user_list user).1))) =
      Outcome.err e) :
    ∃ c', Context.add_message enc p compl c text user = Outcome.ok c' ∧
      c'.messages = c.messages ++ [Message.mk user text] ∧
      c'.summary = c.summary := by
  obtain ⟨hm, hs, _⟩ := update_user_list_preserves c user
  by_cases htr : usize_cast (Context.count_history_tokens enc p (c.update_user_list user).2 +
      count_message_tokens enc p
        ((Message.mk user text).to_chat_message (c.update_user_list user).1)) ≥
      (c.update_user_list user).2.history_token_limit
  · have hrun : Context.add_message enc p compl c text user =
        Outcome.ok { (c.update_user_list user).2 with
          messages := (c.update_user_list user).2.messages ++ [Message.mk user text] } := by
      simp only [Context.add_message]
      rw [if_pos htr, hfail]
    exact ⟨_, hrun, by simp [hm], by simp [hs]⟩
  · have hrun : Context.add_message enc p compl c text user =
        Outcome.ok { (c.update_user_list user).2 with
          messages := (c.update_user_list user).2.messages ++ [Message.mk user text] } := by
      simp only [Context.add_message]
      rw [if_neg htr]
    exact ⟨_, hrun, by simp [hm], by simp [hs]⟩

/-- C10 (witness): with an always-failing transport, `add_message` on a concrete
context still appends the message and leaves messages and summary untouched. -/
theorem c10_summarization_error_discarded_witness :
    ∃ c', Context.add_message enc0 gpt4 oracle_err ctx_c2_0 big_text User.system =
        Outcome.ok c' ∧
      c'.messages = ctx_c2_0.messages ++ [Message.mk User.system big_text] ∧
      c'.summary = ctx_c2_0.summary :=
  c10_summarization_error_discarded enc0 gpt4 oracle_err ctx_c2_0 big_text User.system
    ("service unavailable") rfl

/-- Helper: rendering a name-free slice attaches no name tag regardless of position. -/
theorem render_from_plain (i : Nat) (ms : List Message) (h : ∀ m ∈ ms, m.is_plain = true) :
    render_from i ms = ms.map (fun m => m.to_chat_message none) := by
  induction ms generalizing i with
  | nil => rfl
  | cons m rest ih =>
    have hm := h m (List.mem_cons_self m rest)
    have hr : ∀ x ∈ rest, x.is_plain = true := fun x hx => h x (List.mem_cons_of_mem m hx)
    simp only [render_from, List.map_cons, ih (i + 1) hr]
    cases hs : m.sender with
    | user aliases => rw [Message.is_plain, hs] at hm; simp at hm
    | system => rfl
    | assistant => rfl

/-- Helper: the token-count loop is the sum of the per-message costs. -/
theorem count_chat_eq_sum (enc : String → Nat) (p : ModelParams) (l : List ChatMessage) :
    count_chat_list_tokens enc p l = (l.map (count_message_tokens enc p)).sum := by
  induction l with
  | nil => rfl
  | cons m rest ih => simp [count_chat_list_tokens, ih]

/-- Helper: `chat_to_history(None)` renders the whole history from position 0. -/
theorem chat_to_history_none (c : Context) :
    c.chat_to_history none = render_from 0 c.messages := by
  simp [Context.chat_to_history]

/-- Helper: on a name-free history the total token cost is the sum of name-free
per-message costs. -/
theorem count_history_plain (enc : String → Nat) (p : ModelParams) (c : Context)
    (h : plain_history c) :
    Context.count_history_tokens enc p c = (c.messages.map (plain_cost enc p)).sum := by
  rw [Context.count_history_tokens, chat_to_history_none, render_from_plain 0 c.messages h,
    count_chat_eq_sum, List.map_map]
  rfl

/-- Helper: a name-free rendering has nonnegative token cost whenever the per-message
overhead is nonnegative. -/
theorem plain_cost_nonneg (enc : String → Nat) (p : ModelParams) (hp : 0 ≤ p.tpm)
    (m : Message) : 0 ≤ plain_cost enc p m := by
  have h : plain_cost enc p m =
      p.tpm + (enc m.message : Int) +
        (enc (role_str ((m.to_chat_message none).role)) : Int) + 0 := rfl
  rw [h]
  have h1 : (0 : Int) ≤ (enc m.message : Int) := Int.natCast_nonneg _
  have h2 : (0 : Int) ≤ (enc (role_str ((m.to_chat_message none).role)) : Int) :=
    Int.natCast_nonneg _
  omega

/-- Helper: the `as usize` cast is the identity on `i64` values in `[0, 2^64)`. -/
theorem usize_cast_eq_int (x : Int) (h0 : 0 ≤ x) (h1 : x < (2 : Int) ^ 64) :
    (usize_cast x : Int) = x := by
  unfold usize_cast
  rw [Int.emod_eq_of_lt h0 h1, Int.toNat_of_nonneg h0]

/-- Helper: the walked prefix of `compress_history` fits within the permitted size. -/
theorem compress_walk_sum (cost : Message → Nat) (ms : List Message) (permitted : Nat) :
    ((ms.take (compress_walk cost ms permitted)).map cost).sum ≤ permitted := by
  induction ms generalizing permitted with
  | nil => simp [compress_walk]
  | cons m rest ih =>
    by_cases h : cost m > permitted
    · simp [compress_walk, h]
    · push_neg at h
      rw [compress_walk, if_neg (by omega)]
      rw [List.take_succ_cons, List.map_cons, List.sum_cons]
      have := ih (permitted - cost m)
      omega

/-- Helper: a list whose `Int`-valued costs agree with `Nat`-valued costs elementwise
has its `Int` sum equal to the cast of the `Nat` sum. -/
theorem map_cast_sum (f : Message → Int) (g : Message → Nat) (l : List Message)
    (h : ∀ m ∈ l, f m = (g m : Int)) : (l.map f).sum = ((l.map g).sum : Int) := by
  induction l with
  | nil => simp
  | cons m rest ih =>
    rw [List.map_cons, List.sum_cons, List.map_cons, List.sum_cons,
      h m (List.mem_cons_self m rest), ih (fun x hx => h x (List.mem_cons_of_mem m hx))]
    push_cast
    ring

/-- Helper: a name-free sender resolves to no registry index. -/
theorem find_user_plain (c : Context) (m : Message) (h : m.is_plain = true) :
    c.find_user m.sender = none := by
  cases hs : m.sender with
  | user aliases => rw [Message.is_plain, hs] at h; simp at h
  | system => rfl
  | assistant => rfl

/-- Helper: the context with empty history has zero history cost. -/
theorem count_history_nil (enc : String → Nat) (p : ModelParams) (c : Context)
    (h : c.messages = []) : Context.count_history_tokens enc p c = 0 := by
  rw [Context.count_history_tokens, chat_to_history_none, h]
  rfl

/-- Helper: under a collaborator that always answers with at least one choice,
`compress_history` succeeds, storing that choice's content as the summary and
retaining exactly the walked prefix of the history. -/
theorem compress_history_oracle_ok (enc : String → Nat) (p : ModelParams)
    (compl : Completion) (c : Context) (nt : Nat)
    (horacle : ∀ request : ChatRequest, ∃ response choice rest,
      compl request = Except.ok response ∧ response.choices = choice :: rest) :
    ∃ choice : Choice, Context.compress_history enc p compl c nt =
      Outcome.ok { c with
        summary := some choice.message.content
        messages := c.messages.take (compress_walk
          (fun m => usize_cast (count_message_tokens enc p (m.to_chat_message (c.find_user m.sender))))
          c.messages
          (if nt > c.history_target then 0 else c.history_target - nt)) } := by
  obtain ⟨resp, ch, rest, hcompl, hchoices⟩ := horacle
    ⟨c.chat_to_history (some (c.messages.length - compress_walk
        (fun m => usize_cast (count_message_tokens enc p (m.to_chat_message (c.find_user m.sender))))
        c.messages
        (if nt > c.history_target then 0 else c.history_target - nt))) ++ [get_summary_instruction],
      c.summary_budget, c.model⟩
  refine ⟨ch, ?_⟩
  simp only [Context.compress_history]
  rw [hcompl]
  simp [hchoices]

/-- Helper: the total history cost is the cost of the rendered message list. -/
theorem count_history_tokens_messages (enc : String → Nat) (p : ModelParams) (c : Context) :
    Context.count_history_tokens enc p c =
      count_chat_list_tokens enc p (render_from 0 c.messages) := by
  rw [Context.count_history_tokens, chat_to_history_none]

/-- Helper: rendering a name-free message list costs the sum of name-free costs. -/
theorem render_sum_plain (enc : String → Nat) (p : ModelParams) (ms : List Message)
    (h : ∀ m ∈ ms, m.is_plain = true) :
    count_chat_list_tokens enc p (render_from 0 ms) = (ms.map (plain_cost enc p)).sum := by
  rw [render_from_plain 0 ms h, count_chat_eq_sum, List.map_map]
  rfl

/-- Helper: the name-free cost of the prefix kept by the compression walk is bounded by
the permitted size, provided each message's cost fits in a `usize`. -/
theorem take_walk_sum_bound (enc : String → Nat) (p : ModelParams) (c : Context)
    (hp : 0 ≤ p.tpm) (hpl : plain_history c)
    (hbound : ∀ m ∈ c.messages, plain_cost enc p m < (2 : Int) ^ 64) (permitted : Nat) :
    ((c.messages.take (compress_walk
        (fun m => usize_cast (count_message_tokens enc p (m.to_chat_message (c.find_user m.sender))))
        c.messages permitted)).map (plain_cost enc p)).sum ≤ (permitted : Int) := by
  have hw := compress_walk_sum
    (fun m => usize_cast (count_message_tokens enc p (m.to_chat_message (c.find_user m.sender))))
    c.messages permitted
  have hcast : ∀ m ∈ c.messages.take (compress_walk
      (fun m => usize_cast (count_message_tokens enc p (m.to_chat_message (c.find_user m.sender))))
      c.messages permitted),
      plain_cost enc p m =
        ((fun m => usize_cast (count_message_tokens enc p (m.to_chat_message (c.find_user m.sender)))) m : Int) := by
    intro m hm
    have hmem := List.take_subset _ _ hm
    have h1 := find_user_plain c m (hpl m hmem)
    show plain_cost enc p m =
      (usize_cast (count_message_tokens enc p (m.to_chat_message (c.find_user m.sender))) : Int)
    rw [h1]
    exact (usize_cast_eq_int _ (plain_cost_nonneg enc p hp m) (hbound m hmem)).symm
  rw [map_cast_sum _ _ _ hcast]
  exact_mod_cast hw

/-- Helper: every state in `SafeReach` satisfies the full inductive invariant. -/
theorem safe_reach_good (enc : String → Nat) (c : Context) (h : SafeReach enc c) :
    good_state enc c := by
  induction h with
  | init max_tokens model summary_budget history_target alias_budget c h1 h2 h3 h4 hmax hnew =>
    simp only [Context.new] at hnew
    split at hnew
    · simp at hnew
    · next hcond =>
      push_neg at hcond
      simp only [Except.ok.injEq] at hnew
      subst hnew
      refine ⟨fun m hm => by simp at hm, hmax, hcond, ?_⟩
      rw [count_history_nil enc gpt4 _ rfl]
      dsimp only
      omega
  | step compl c c' text sender hreach hplain hcost horacle hadd ih =>
    obtain ⟨hpl, hmax, hcfg, hinv⟩ := ih
    have hupd : c.update_user_list sender = (none, c) := by
      cases sender with
      | user aliases => simp [Message.is_plain] at hplain
      | system => rfl
      | assistant => rfl
    have hmt0 : 0 ≤ count_message_tokens enc gpt4 ((Message.mk sender text).to_chat_message none) :=
      plain_cost_nonneg enc gpt4 (by decide) (Message.mk sender text)
    have hsum := count_history_plain enc gpt4 c hpl
    have hcost_each : ∀ m ∈ c.messages, 0 ≤ plain_cost enc gpt4 m :=
      fun m _ => plain_cost_nonneg enc gpt4 (by decide) m
    have htot0 : 0 ≤ Context.count_history_tokens enc gpt4 c := by
      rw [hsum]
      apply List.sum_nonneg
      intro x hx
      obtain ⟨m, hm, rfl⟩ := List.mem_map.mp hx
      exact hcost_each m hm
    have hmaxI : (c.max_tokens : Int) < 2 ^ 63 := by exact_mod_cast hmax
    have htotmax : Context.count_history_tokens enc gpt4 c < (c.max_tokens : Int) := by omega
    have hhtmax : c.history_target < c.max_tokens := by omega
    have heach_le : ∀ m ∈ c.messages,
        plain_cost enc gpt4 m ≤ Context.count_history_tokens enc gpt4 c := by
      intro m hm
      rw [hsum]
      refine List.single_le_sum ?_ _ (List.mem_map_of_mem _ hm)
      intro x hx
      obtain ⟨y, hy, rfl⟩ := List.mem_map.mp hx
      exact hcost_each y hy
    have hbound : ∀ m ∈ c.messages, plain_cost enc gpt4 m < (2 : Int) ^ 64 := by
      intro m hm
      have := heach_le m hm
      omega
    simp only [Context.add_message, hupd] at hadd
    split at hadd
    · -- compression triggered before the append
      next hcond =>
      obtain ⟨ch, hcomp⟩ := compress_history_oracle_ok enc gpt4 compl c
        (usize_cast (count_message_tokens enc gpt4 ((Message.mk sender text).to_chat_message none)))
        horacle
      rw [hcomp] at hadd
      simp only [Outcome.ok.injEq] at hadd
      subst hadd
      have hplain' : ∀ m ∈ c.messages.take (compress_walk
          (fun m => usize_cast (count_message_tokens enc gpt4 (m.to_chat_message (c.find_user m.sender))))
          c.messages
          (if usize_cast (count_message_tokens enc gpt4 ((Message.mk sender text).to_chat_message none)) >
              c.history_target then 0
           else c.history_target -
              usize_cast (count_message_tokens enc gpt4 ((Message.mk sender text).to_chat_message none)))) ++
          [Message.mk sender text], m.is_plain = true := by
        intro m hm
        rcases List.mem_append.mp hm with hmem | hmem
        · exact hpl m (List.take_subset _ _ hmem)
        · rw [List.mem_singleton] at hmem
          subst hmem
          exact hplain
      have hNT : (usize_cast (count_message_tokens enc gpt4
          ((Message.mk sender text).to_chat_message none)) : Int) =
          count_message_tokens enc gpt4 ((Message.mk sender text).to_chat_message none) :=
        usize_cast_eq_int _ hmt0 (by omega)
      have hNTle : usize_cast (count_message_tokens enc gpt4
          ((Message.mk sender text).to_chat_message none)) ≤ c.history_target := by
        omega
      have hPERM : (if usize_cast (count_message_tokens enc gpt4
            ((Message.mk sender text).to_chat_message none)) > c.history_target then 0
          else c.history_target - usize_cast (count_message_tokens enc gpt4
            ((Message.mk sender text).to_chat_message none))) =
          c.history_target - usize_cast (count_message_tokens enc gpt4
            ((Message.mk sender text).to_chat_message none)) := by
        rw [if_neg]
        omega
      have hS := take_walk_sum_bound enc gpt4 c (by decide) hpl hbound
        (if usize_cast (count_message_tokens enc gpt4
            ((Message.mk sender text).to_chat_message none)) > c.history_target then 0
         else c.history_target - usize_cast (count_message_tokens enc gpt4
            ((Message.mk sender text).to_chat_message none)))
      refine ⟨hplain', hmax, hcfg, ?_⟩
      rw [count_history_tokens_messages enc gpt4]
      dsimp only
      rw [render_sum_plain enc gpt4 _ hplain', List.map_append, List.sum_append]
      have hmsg_cost : ([Message.mk sender text].map (plain_cost enc gpt4)).sum =
          count_message_tokens enc gpt4 ((Message.mk sender text).to_chat_message none) := by
        simp [plain_cost]
      rw [hmsg_cost, hPERM]
      rw [hPERM] at hS
      omega
    · -- no compression: the message fits
      next hcond =>
      simp only [Outcome.ok.injEq] at hadd
      subst hadd
      have hplain' : ∀ m ∈ c.messages ++ [Message.mk sender text], m.is_plain = true := by
        intro m hm
        rcases List.mem_append.mp hm with hmem | hmem
        · exact hpl m hmem
        · rw [List.mem_singleton] at hmem
          subst hmem
          exact hplain
      have h64 : Context.count_history_tokens enc gpt4 c +
          count_message_tokens enc gpt4 ((Message.mk sender text).to_chat_message none) <
          (2 : Int) ^ 64 := by
        omega
      have hfaith : (usize_cast (Context.count_history_tokens enc gpt4 c +
          count_message_tokens enc gpt4 ((Message.mk sender text).to_chat_message none)) : Int) =
          Context.count_history_tokens enc gpt4 c +
            count_message_tokens enc gpt4 ((Message.mk sender text).to_chat_message none) :=
        usize_cast_eq_int _ (by omega) h64
      have hltN : usize_cast (Context.count_history_tokens enc gpt4 c +
          count_message_tokens enc gpt4 ((Message.mk sender text).to_chat_message none)) <
          c.history_token_limit := Nat.lt_of_not_le hcond
      have hlim : (c.history_token_limit : Int) = (c.max_tokens : Int) - (c.alias_budget : Int) -
          (c.summary_budget : Int) - (c.summary_instruction_budget : Int) := by
        unfold Context.history_token_limit
        omega
      have hltI : Context.count_history_tokens enc gpt4 c +
          count_message_tokens enc gpt4 ((Message.mk sender text).to_chat_message none) <
          (c.history_token_limit : Int) := by
        rw [← hfaith]
        exact_mod_cast hltN
      refine ⟨hplain', hmax, hcfg, ?_⟩
      rw [count_history_tokens_messages enc gpt4]
      dsimp only
      rw [render_sum_plain enc gpt4 _ hplain', List.map_append, List.sum_append, ← hsum]
      have hmsg_cost : ([Message.mk sender text].map (plain_cost enc gpt4)).sum =
          count_message_tokens enc gpt4 ((Message.mk sender text).to_chat_message none) := by
        simp [plain_cost]
      rw [hmsg_cost]
      omega

/-- C2 (amended): the budget invariant
`token_cost(kept history) + summary_budget + alias_budget + summary_instruction_overhead
< max_tokens` holds for every state reachable from `Context::new` (model `gpt-4`,
valid nonzero budgets below `2^63`) through `add_message` calls in which every sender
is System or Assistant, every incoming message's token cost is at most
`history_target`, and every summarization call succeeds with at least one choice
(`generate_response` takes `&self` and cannot change state).  The restrictions are
forced by the code: an incoming message costing more than`history_target` is appended
even though it cannot fit (see the counterexample and C4), a discarded summarization
failure leaves the over-budget history in place (C10), and `User` senders are costed
with registry-index name tags but rendered with position-index tags (C5), so their
accounting is not coherent. -/
theorem c2_budget_invariant_conditional (enc : String → Nat) (c : Context)
    (h : SafeReach enc c) :
    Context.count_history_tokens enc gpt4 c + (c.summary_budget : Int) +
      (c.alias_budget : Int) + (c.summary_instruction_budget : Int) < (c.max_tokens : Int) :=
  (safe_reach_good enc c h).2.2.2

/-- C2 (amended, witness): the invariant at a concrete freshly constructed state. -/
theorem c2_budget_invariant_conditional_witness :
    Context.count_history_tokens enc0 gpt4 ctx_c2_0 + (ctx_c2_0.summary_budget : Int) +
      (ctx_c2_0.alias_budget : Int) + (ctx_c2_0.summary_instruction_budget : Int) <
      (ctx_c2_0.max_tokens : Int) :=
  c2_budget_invariant_conditional enc0 ctx_c2_0
    (SafeReach.init 200 ("gpt-4") 10 20 5 ctx_c2_0 (by decide) (by decide) (by decide)
      (by decide) (by decide) rfl)
